import Mathlib

/-!
Shallow embedding of the JSON-RPC dispatcher of go-packages-driver-wasm:
the envelope and error model of src/internal/jsonrpc/types.go and the
listener, cancellation registry, and typed handler adapter of
src/internal/jsonrpc/handler.go.

Go machine integers are modelled as Lean Int (ids never overflow in any
claim), json.RawMessage payloads as an inductive describing their decode
outcome, Go error values as an inductive wrap chain, and the sync.Map of
the cancellation registry as an association list with store-replaces
semantics.
-/

namespace JsonRpc

/-! ### Envelope and error model (types.go) -/

/-- Error code type: types.go declares `type ErrorCode int`. -/
abbrev ErrorCode := Int

/-- ParseError = -32700 (types.go). -/
def ErrorCodeParseError : ErrorCode := -32700

/-- InvalidRequest = -32600 (types.go). -/
def ErrorCodeInvalidRequest : ErrorCode := -32600

/-- MethodNotFound = -32601 (types.go). -/
def ErrorCodeMethodNotFound : ErrorCode := -32601

/-- InvalidParams = -32602 (types.go). -/
def ErrorCodeInvalidParams : ErrorCode := -32602

/-- InternalError = -32603 (types.go). -/
def ErrorCodeInternalError : ErrorCode := -32603

/-- Protocol error object (types.go `Error`). The `data` field is `any` in
the source and is never populated by any constructor in the repository, so
it is modelled as an always-absent optional string. -/
structure Error where
  code : ErrorCode
  message : String
  data : Option String := none
deriving DecidableEq, Repr

/-- Method `(code ErrorCode) Errorf(format, args...)` of types.go builds an
Error from the code and a formatted message. The model receives the already
formatted message: call sites below pass the concatenation mirroring their
format string. -/
def ErrorCode.Errorf (code : ErrorCode) (msg : String) : Error :=
  { code := code, message := msg }

/-- Go error values as seen by this package: either a protocol `*Error`
(which itself implements `error`), an error wrapping another one (made with
the fmt.Errorf %w verb; `msg` is the full rendered message), or any other
plain error with its message. -/
inductive GoError where
  | rpc (e : Error)
  | wrap (msg : String) (inner : GoError)
  | plain (msg : String)
deriving DecidableEq, Repr

/-- Method `(err *Error) Error()` of types.go: Sprintf "%s (code: %d)". -/
def Error.errorString (e : Error) : String :=
  e.message ++ " (code: " ++ toString e.code ++ ")"

/-- The string the Go `error.Error()` method returns for each error value. -/
def GoError.errorString : GoError → String
  | .rpc e => e.errorString
  | .wrap msg _ => msg
  | .plain msg => msg

/-- `errors.As(err, &e)` with `e : *Error`: walks the unwrap chain and
returns the first protocol Error found, if any. -/
def errorsAsError : GoError → Option Error
  | .rpc e => some e
  | .wrap _ inner => errorsAsError inner
  | .plain _ => none

/-- `NewError(code, err)` of types.go: an Error with the given code whose
message is `err.Error()`. -/
def NewError (code : ErrorCode) (err : GoError) : Error :=
  { code := code, message := err.errorString }

/-- `WrapError(err)` of types.go: return the protocol Error found by
`errors.As`, otherwise wrap under ErrorCodeInternalError. -/
def WrapError (err : GoError) : Error :=
  match errorsAsError err with
  | some e => e
  | none => NewError ErrorCodeInternalError err

/-- Response envelope (types.go `Response`). `Result` is `any` in the
source; the model is polymorphic in the result payload type. -/
structure Response (α : Type) where
  id : Int
  result : Option α := none
  error : Option Error := none
deriving DecidableEq, Repr

/-- Method `(err *Error) AsResponse(reqID)` of types.go. -/
def Error.AsResponse {α : Type} (err : Error) (reqID : Int) : Response α :=
  { id := reqID, error := some err }

/-- Constant NotificationCancelRequest of types.go. -/
def NotificationCancelRequest : String := "$/cancelRequest"

/-- A json.RawMessage parameter payload, described by how it decodes when
`json.Unmarshal` targets an `int`: either it decodes to that integer, or it
fails with the given error message. -/
inductive Params where
  | intVal (n : Int)
  | nonInt (msg : String)
deriving DecidableEq, Repr

/-- Request envelope (types.go `Request`). -/
structure Request where
  id : Int
  method : String
  params : Params
deriving DecidableEq, Repr

/-! ### Cancellation registry (handler.go `requestCanceler`)

The sync.Map from request id to context.CancelFunc is modelled as an
association list from Int to an abstract action type α; `Store` replaces
any existing entry for the key, `LoadAndDelete` returns and removes it.
Operations that may invoke stored cancel actions additionally return the
list (or option) of actions they invoked. -/

/-- Lookup in the registry's backing list (sync.Map.Load component). -/
def findEntry {α : Type} : List (Int × α) → Int → Option α
  | [], _ => none
  | (k, v) :: rest, reqID => if k = reqID then some v else findEntry rest reqID

/-- Removal from the registry's backing list (sync.Map.Delete component). -/
def eraseEntry {α : Type} : List (Int × α) → Int → List (Int × α)
  | [], _ => []
  | (k, v) :: rest, reqID =>
    if k = reqID then eraseEntry rest reqID else (k, v) :: eraseEntry rest reqID

/-- The `requestCanceler` struct of handler.go: a concurrency-safe map from
in-flight request id to its cancel action. -/
structure RequestCanceler (α : Type) where
  entries : List (Int × α)
deriving DecidableEq, Repr

/-- `cancelRequest(reqID)` of handler.go: LoadAndDelete; if absent, return;
otherwise invoke the removed cancel action. The second component is the
action invoked, if any. -/
def RequestCanceler.cancelRequest {α : Type} (rc : RequestCanceler α) (reqID : Int) :
    RequestCanceler α × Option α :=
  match findEntry rc.entries reqID with
  | none => (rc, none)
  | some a => (⟨eraseEntry rc.entries reqID⟩, some a)

/-- `finishRequest(reqID)` of handler.go: LoadAndDelete without invoking;
returns whether an entry existed. -/
def RequestCanceler.finishRequest {α : Type} (rc : RequestCanceler α) (reqID : Int) :
    RequestCanceler α × Bool :=
  (⟨eraseEntry rc.entries reqID⟩, (findEntry rc.entries reqID).isSome)

/-- `cancelAll()` of handler.go: invoke every stored action, then clear. -/
def RequestCanceler.cancelAll {α : Type} (rc : RequestCanceler α) :
    RequestCanceler α × List α :=
  (⟨[]⟩, rc.entries.map Prod.snd)

/-- `addRequest(reqID, cancelFn)` of handler.go: sync.Map.Store, which
replaces any existing entry for the key and invokes nothing. -/
def RequestCanceler.addRequest {α : Type} (rc : RequestCanceler α) (reqID : Int)
    (cancelFn : α) : RequestCanceler α :=
  ⟨(reqID, cancelFn) :: eraseEntry rc.entries reqID⟩

/-! ### Registry lemmas -/

theorem findEntry_eraseEntry {α : Type} (l : List (Int × α)) (reqID : Int) :
    findEntry (eraseEntry l reqID) reqID = none := by
  induction l with
  | nil => rfl
  | cons hd tl ih =>
    obtain ⟨k, v⟩ := hd
    by_cases hk : k = reqID
    · simpa [eraseEntry, hk] using ih
    · simp [eraseEntry, findEntry, hk, ih]

theorem eraseEntry_idem {α : Type} (l : List (Int × α)) (reqID : Int) :
    eraseEntry (eraseEntry l reqID) reqID = eraseEntry l reqID := by
  induction l with
  | nil => rfl
  | cons hd tl ih =>
    obtain ⟨k, v⟩ := hd
    by_cases hk : k = reqID
    · simp [eraseEntry, hk, ih]
    · simp [eraseEntry, hk, ih]

theorem cancelRequest_of_absent {α : Type} (rc : RequestCanceler α) (reqID : Int)
    (h : findEntry rc.entries reqID = none) :
    rc.cancelRequest reqID = (rc, none) := by
  simp [RequestCanceler.cancelRequest, h]

/-- C3: the registry invokes an id's cancel action at most once. Canceling
an id with no entry is a no-op; after register(id, action) followed by
finish(id), a subsequent cancel(id) is a no-op invoking nothing; and a
second cancel of the same id never invokes an action again. -/
theorem canceler_cancel_at_most_once {α : Type} (rc : RequestCanceler α) (reqID : Int)
    (a : α) :
    (findEntry rc.entries reqID = none → rc.cancelRequest reqID = (rc, none)) ∧
    (((rc.addRequest reqID a).finishRequest reqID).1.cancelRequest reqID =
      (((rc.addRequest reqID a).finishRequest reqID).1, none)) ∧
    ((rc.cancelRequest reqID).1.cancelRequest reqID).2 = none := by
  refine ⟨fun h => cancelRequest_of_absent rc reqID h, ?_, ?_⟩
  · apply cancelRequest_of_absent
    simp [RequestCanceler.addRequest, RequestCanceler.finishRequest, eraseEntry,
      eraseEntry_idem, findEntry_eraseEntry]
  · rcases h : findEntry rc.entries reqID with _ | a0
    · simp [RequestCanceler.cancelRequest, h]
    · simp [RequestCanceler.cancelRequest, h, findEntry_eraseEntry]

/-- Witness for C3 at a concrete registry. -/
theorem canceler_cancel_at_most_once_witness :
    (RequestCanceler.cancelRequest (α := Nat) ⟨[]⟩ 1 = (⟨[]⟩, none)) :=
  (canceler_cancel_at_most_once (⟨[]⟩ : RequestCanceler Nat) 1 0).1 rfl

/-- C10: registering over an existing entry silently replaces it; the old
action is dropped from the registry without being invoked (addRequest
invokes nothing — its result carries no invoked action), and a single
finish(id) afterwards leaves no entry, so a later cancel(id) is a no-op. -/
theorem canceler_register_overwrites {α : Type} (rc : RequestCanceler α) (reqID : Int)
    (a1 a2 : α) :
    ((rc.addRequest reqID a1).addRequest reqID a2 =
      ⟨(reqID, a2) :: eraseEntry rc.entries reqID⟩) ∧
    ((((rc.addRequest reqID a1).addRequest reqID a2).cancelRequest reqID).2 = some a2) ∧
    ((((rc.addRequest reqID a1).addRequest reqID a2).finishRequest reqID).1 =
      ⟨eraseEntry rc.entries reqID⟩) ∧
    ((RequestCanceler.cancelRequest ⟨eraseEntry rc.entries reqID⟩ reqID).2 = none) := by
  refine ⟨?_, ?_, ?_, ?_⟩
  · simp [RequestCanceler.addRequest, eraseEntry, eraseEntry_idem]
  · simp [RequestCanceler.addRequest, RequestCanceler.cancelRequest, findEntry,
      eraseEntry, eraseEntry_idem]
  · simp [RequestCanceler.addRequest, RequestCanceler.finishRequest, eraseEntry,
      eraseEntry_idem]
  · simp [RequestCanceler.cancelRequest, findEntry_eraseEntry]

/-! ### Typed handler adapter (handler.go `typedHandler`)

`typedHandler[TRequest, TResponse].HandleRequest` decodes the raw params
into TRequest with json.Unmarshal and calls the business function. The
json.Unmarshal instance at the declared parameter type is passed to the
model as the `unmarshal` argument; the business function returns the Go
pair (out *TResponse, err error), modelled as Option TRsp × Option GoError. -/

/-- Method `HandleRequest` of typedHandler (handler.go lines 24-31). -/
def typedHandlerHandleRequest {Ctx TReq TRsp : Type}
    (unmarshal : Params → Except String TReq)
    (handleFunc : Ctx → TReq → Option TRsp × Option GoError)
    (ctx : Ctx) (params : Params) : Option TRsp × Option GoError :=
  match unmarshal params with
  | .error e => (none, some (.rpc (NewError ErrorCodeParseError (.plain e))))
  | .ok req => handleFunc ctx req

/-- C4: the typed handler adapter either decodes the raw parameter bytes
and invokes the business function with the decoded value, propagating its
result pair unchanged, or, on decode failure, returns a ParseError carrying
the decode failure detail and a nil result, with an outcome independent of
the business function (it is not invoked). -/
theorem typedHandler_decode_contract {Ctx TReq TRsp : Type}
    (unmarshal : Params → Except String TReq)
    (f g : Ctx → TReq → Option TRsp × Option GoError)
    (ctx : Ctx) (params : Params) (e : String) (req : TReq) :
    (unmarshal params = .error e →
      typedHandlerHandleRequest unmarshal f ctx params =
        (none, some (.rpc { code := ErrorCodeParseError, message := e })) ∧
      typedHandlerHandleRequest unmarshal f ctx params =
        typedHandlerHandleRequest unmarshal g ctx params) ∧
    (unmarshal params = .ok req →
      typedHandlerHandleRequest unmarshal f ctx params = f ctx req) := by
  constructor
  · intro h
    constructor
    · simp [typedHandlerHandleRequest, h, NewError, GoError.errorString]
    · simp [typedHandlerHandleRequest, h]
  · intro h
    simp [typedHandlerHandleRequest, h]

/-- Sample decoder for the C4 witness: accepts integer payloads. -/
def sampleUnmarshal : Params → Except String Int :=
  fun p => match p with | .intVal n => .ok n | .nonInt m => .error m

/-- Sample business function for the C4 witness. -/
def sampleHandleFunc : Unit → Int → Option Int × Option GoError :=
  fun _ n => (some (n + 1), none)

/-- Witness for C4: the sample decoder exercised on one failing and one
succeeding decode. -/
theorem typedHandler_decode_contract_witness :
    (typedHandlerHandleRequest sampleUnmarshal sampleHandleFunc () (.nonInt "bad payload") =
      (none, some (.rpc { code := ErrorCodeParseError, message := "bad payload" }))) ∧
    (typedHandlerHandleRequest sampleUnmarshal sampleHandleFunc () (.intVal 2) =
      (some 3, none)) := by
  constructor
  · exact ((typedHandler_decode_contract sampleUnmarshal sampleHandleFunc sampleHandleFunc
      () (.nonInt "bad payload") "bad payload" 0).1 rfl).1
  · exact (typedHandler_decode_contract sampleUnmarshal sampleHandleFunc sampleHandleFunc
      () (.intVal 2) "bad payload" 2).2 rfl

/-! ### Error classification (types.go `WrapError`) -/

/-- C8: WrapError preserves a failure that is, or wraps, a protocol Error
(returning that protocol Error unchanged), and otherwise returns a new
Error under the InternalError code -32603 carrying the failure's message. -/
theorem wrapError_preserves_or_internal (err : GoError) :
    (∀ e : Error, err = .rpc e → WrapError err = e) ∧
    (∀ e : Error, errorsAsError err = some e → WrapError err = e) ∧
    (errorsAsError err = none →
      WrapError err = { code := ErrorCodeInternalError, message := err.errorString } ∧
      (WrapError err).code = -32603) := by
  refine ⟨?_, ?_, ?_⟩
  · rintro e rfl
    simp [WrapError, errorsAsError]
  · intro e h
    simp [WrapError, h]
  · intro h
    constructor
    · simp [WrapError, h, NewError]
    · simp [WrapError, h, NewError, ErrorCodeInternalError]

/-- Witness for C8 on a plain (non-protocol, non-wrapping) failure and on a
failure that wraps a protocol Error. -/
theorem wrapError_preserves_or_internal_witness :
    (WrapError (.plain "boom") =
      { code := ErrorCodeInternalError, message := "boom" }) ∧
    (WrapError (.wrap "outer context" (.rpc ⟨ErrorCodeInvalidParams, "bad", none⟩)) =
      { code := ErrorCodeInvalidParams, message := "bad" }) := by
  constructor
  · exact ((wrapError_preserves_or_internal (.plain "boom")).2.2 rfl).1
  · exact (wrapError_preserves_or_internal (.wrap "outer context"
      (.rpc { code := ErrorCodeInvalidParams, message := "bad" }))).2.1
      { code := ErrorCodeInvalidParams, message := "bad" } rfl

/-! ### Read-loop error handling (handler.go `ListenStream`, lines 114-123) -/

/-- Outcome of a read error as seen at the bottom of the read loop: the
error is either absent, an end-of-stream error (io.EOF), a closed-stream
error (net.ErrClosed), or any other read error with its message. -/
inductive ReadError where
  | eof
  | closed
  | other (msg : String)
deriving DecidableEq, Repr

/-- What the loop iteration does after handling any yielded line. -/
inductive LoopOutcome where
  | next
  | cleanExit
  | failExit (msg : String)
deriving DecidableEq, Repr

/-- Lines 114-123 of handler.go: with no error the loop continues; io.EOF
and net.ErrClosed return nil; otherwise, if connCtx is already canceled,
return nil; otherwise surface the read error wrapped as a connection
failure. -/
def readErrorOutcome (err : Option ReadError) (connCtxCanceled : Bool) : LoopOutcome :=
  match err with
  | none => .next
  | some .eof => .cleanExit
  | some .closed => .cleanExit
  | some (.other msg) =>
    if connCtxCanceled then .cleanExit
    else .failExit ("connection read failed: " ++ msg)

/-- C6: end-of-stream and closed-stream errors terminate the loop cleanly
regardless of the context; any other read error is surfaced as a connection
failure, unless the owning context was already canceled, in which case the
loop returns cleanly; no error means the loop continues. -/
theorem listenStream_read_error_handling (msg : String) (canceled : Bool) :
    readErrorOutcome none canceled = .next ∧
    readErrorOutcome (some .eof) canceled = .cleanExit ∧
    readErrorOutcome (some .closed) canceled = .cleanExit ∧
    readErrorOutcome (some (.other msg)) true = .cleanExit ∧
    readErrorOutcome (some (.other msg)) false =
      .failExit ("connection read failed: " ++ msg) := by
  cases canceled <;> simp [readErrorOutcome]

/-! ### Per-request execution (handler.go `handleRequest`, goroutine body,
lines 153-184)

The spawned goroutine calls handler.HandleRequest under a recover guard.
Its observable effect on the wire is which response (if any) it writes,
as a function of the handler invocation's outcome and of whether the
connection's own context is already canceled when the write step runs. -/

/-- Outcome of the handler invocation inside the goroutine: a normal
return with the Go pair (out, err), or a runtime panic with its rendered
message. -/
inductive HandlerOutcome (α : Type) where
  | ok (out : Option α) (err : Option GoError)
  | panicked (msg : String)
deriving DecidableEq, Repr

/-- Response written by the per-request goroutine. On a normal return it
builds Response{ID, Error := WrapError err (when err is non-nil), Result :=
out}, returns without writing when the connection context is already
canceled, and writes the response otherwise. On a panic, the recover
handler writes an InternalError response for the request id without
consulting the context. -/
def requestTaskWrite {α : Type} (reqID : Int) (outcome : HandlerOutcome α)
    (connCtxCanceled : Bool) : Option (Response α) :=
  match outcome with
  | .panicked msg => some (Error.AsResponse (ErrorCode.Errorf ErrorCodeInternalError msg) reqID)
  | .ok out err =>
    if connCtxCanceled then none
    else some { id := reqID, result := out, error := err.map WrapError }

/-- C2 counterexample: with the connection context already canceled, a
handler invocation that ends in a runtime fault still writes an
InternalError response — the recover path does not consult the context, so
the claim that no response is written in that case is false. -/
theorem requestTask_panic_write_counterexample :
    requestTaskWrite (α := Unit) 1 (.panicked "boom") true =
      some { id := 1, result := none,
             error := some { code := ErrorCodeInternalError, message := "boom" } } ∧
    requestTaskWrite (α := Unit) 1 (.panicked "boom") true ≠ none := by
  refine ⟨rfl, ?_⟩
  simp [requestTaskWrite, Error.AsResponse, ErrorCode.Errorf]

/-- C2 amended: when the connection's own context has been canceled before
the write step, no response is written for a handler invocation that
returns normally (success or error); when it has not been canceled, the
built response is written; but a handler invocation ending in a runtime
fault is caught and an InternalError response is written regardless of the
connection context's cancellation. -/
theorem requestTask_cancel_suppresses_normal_write {α : Type} (reqID : Int)
    (out : Option α) (err : Option GoError) (msg : String) (canceled : Bool) :
    requestTaskWrite reqID (.ok out err) true = none ∧
    requestTaskWrite reqID (.ok out err) false =
      some { id := reqID, result := out, error := err.map WrapError } ∧
    requestTaskWrite (α := α) reqID (.panicked msg) canceled =
      some { id := reqID, result := none,
             error := some { code := ErrorCodeInternalError, message := msg } } := by
  refine ⟨rfl, rfl, rfl⟩

/-! ### Listener dispatch (handler.go `handleRequest` and
`handleNotification`, synchronous part)

A line yielded by the read loop is described by its envelope decode
outcome. The handler table is modelled by the list of method names having
a registered handler; the cancel action stored for an accepted request is
represented by the request's id (it stands for the CancelFunc of that
request's derived context). Each step returns the new registry state, the
responses it writes synchronously, the spawned task if any, and the cancel
actions it invoked. -/

/-- A non-blank line as consumed by handleRequest, described by how
json.Unmarshal into Request decodes it. -/
inductive Line where
  | malformed (msg : String)
  | request (req : Request)
deriving DecidableEq, Repr

/-- A per-request goroutine launched by the read loop. -/
structure SpawnedTask where
  reqID : Int
  method : String
  params : Params
deriving DecidableEq, Repr

/-- `handleNotification` of handler.go (lines 189-211): unsupported method
fails with MethodNotFound; params not decoding as an integer fails with
InvalidParams; payload 0 fails with InvalidParams; otherwise cancel the
registry entry of the payload id and return nil. Components: the error
returned, the new registry, the cancel action invoked (if any). -/
def handleNotification {α : Type} (rc : RequestCanceler α) (req : Request) :
    Option Error × RequestCanceler α × Option α :=
  if req.method ≠ NotificationCancelRequest then
    (some (ErrorCode.Errorf ErrorCodeMethodNotFound
      ("unsupported notification \"" ++ req.method ++ "\"")), rc, none)
  else
    match req.params with
    | .nonInt msg =>
      (some (ErrorCode.Errorf ErrorCodeInvalidParams ("cannot read params: " ++ msg)), rc, none)
    | .intVal reqID =>
      if reqID = 0 then
        (some (ErrorCode.Errorf ErrorCodeInvalidParams "missing request ID"), rc, none)
      else
        let r := rc.cancelRequest reqID
        (none, r.1, r.2)

/-- Synchronous part of `handleRequest` of handler.go (lines 129-151): a
malformed line is answered with a ParseError to id 0; id 0 dispatches to
handleNotification, whose error (if any) is wrapped and answered to id 0;
an unknown method is answered with MethodNotFound to the request id; a
known method registers the request's cancel action and spawns its task. -/
def handleRequest (handlers : List String) (rc : RequestCanceler Int) (data : Line) :
    RequestCanceler Int × List (Response Unit) × Option SpawnedTask × List Int :=
  match data with
  | .malformed msg =>
    (rc, [Error.AsResponse (NewError ErrorCodeParseError (.plain msg)) 0], none, [])
  | .request req =>
    if req.id = 0 then
      let r := handleNotification rc req
      match r.1 with
      | some e => (r.2.1, [Error.AsResponse (WrapError (.rpc e)) 0], none, r.2.2.toList)
      | none => (r.2.1, [], none, r.2.2.toList)
    else if handlers.contains req.method then
      (rc.addRequest req.id req.id, [], some ⟨req.id, req.method, req.params⟩, [])
    else
      (rc, [Error.AsResponse (ErrorCode.Errorf ErrorCodeMethodNotFound
        ("method not found: \"" ++ req.method ++ "\"")) req.id], none, [])

/-- The read loop of `ListenStream` (lines 99-124) over the non-blank lines
it yields: each line is handled independently and the loop always proceeds
to the next line (a failure of handleRequest is logged, never returned).
Accumulates registry state, written responses, spawned tasks, and invoked
cancel actions, in order. -/
def listenLoop (handlers : List String) (rc : RequestCanceler Int) :
    List Line → RequestCanceler Int × List (Response Unit) × List SpawnedTask × List Int
  | [] => (rc, [], [], [])
  | line :: rest =>
    let step := handleRequest handlers rc line
    let next := listenLoop handlers step.1 rest
    (next.1, step.2.1 ++ next.2.1, step.2.2.1.toList ++ next.2.2.1, step.2.2.2 ++ next.2.2.2)

/-- C5: a line that fails to decode as an envelope is answered with a
ParseError response addressed to id 0 carrying the decode error message,
and the read loop continues processing the subsequent lines unchanged. -/
theorem malformed_line_parse_error_continues (handlers : List String)
    (rc : RequestCanceler Int) (msg : String) (rest : List Line) :
    handleRequest handlers rc (.malformed msg) =
      (rc, [{ id := 0, result := none,
              error := some { code := ErrorCodeParseError, message := msg } }], none, []) ∧
    listenLoop handlers rc (.malformed msg :: rest) =
      ((listenLoop handlers rc rest).1,
        { id := 0, result := none,
          error := some { code := ErrorCodeParseError, message := msg } } ::
          (listenLoop handlers rc rest).2.1,
        (listenLoop handlers rc rest).2.2.1,
        (listenLoop handlers rc rest).2.2.2) := by
  constructor
  · simp [handleRequest, NewError, GoError.errorString, Error.AsResponse]
  · simp [listenLoop, handleRequest, NewError, GoError.errorString, Error.AsResponse]

/-- C7: a notification (id 0) with a method other than the cancellation
notification is answered with an error response to id 0; a cancellation
notification with integer payload 0 is answered with InvalidParams; with a
nonzero integer payload, the registry's cancel action for that id is
triggered and no response is written. -/
theorem notification_dispatch (handlers : List String) (rc : RequestCanceler Int)
    (m : String) (p : Params) (n : Int) :
    (m ≠ NotificationCancelRequest →
      handleRequest handlers rc (.request ⟨0, m, p⟩) =
        (rc, [{ id := 0, result := none,
                error := some { code := ErrorCodeMethodNotFound,
                                message := "unsupported notification \"" ++ m ++ "\"" } }],
          none, [])) ∧
    (handleRequest handlers rc (.request ⟨0, NotificationCancelRequest, .intVal 0⟩) =
      (rc, [{ id := 0, result := none,
              error := some { code := ErrorCodeInvalidParams,
                              message := "missing request ID" } }], none, [])) ∧
    (n ≠ 0 →
      handleRequest handlers rc (.request ⟨0, NotificationCancelRequest, .intVal n⟩) =
        ((rc.cancelRequest n).1, [], none, (rc.cancelRequest n).2.toList)) := by
  refine ⟨?_, ?_, ?_⟩
  · intro h
    simp [handleRequest, handleNotification, h, WrapError, errorsAsError,
      Error.AsResponse, ErrorCode.Errorf]
  · simp [handleRequest, handleNotification, NotificationCancelRequest, WrapError,
      errorsAsError, Error.AsResponse, ErrorCode.Errorf]
  · intro hn
    simp [handleRequest, handleNotification, hn, WrapError, errorsAsError]

/-- Witness for C7 on a concrete registry holding one in-flight entry. -/
theorem notification_dispatch_witness :
    handleRequest [] ⟨[(5, 7)]⟩ (.request ⟨0, "foo", .intVal 1⟩) =
      (⟨[(5, 7)]⟩,
        [{ id := 0, result := none,
           error := some { code := ErrorCodeMethodNotFound,
                           message := "unsupported notification \"foo\"" } }],
        none, []) ∧
    handleRequest [] ⟨[(5, 7)]⟩ (.request ⟨0, NotificationCancelRequest, .intVal 5⟩) =
      (⟨[]⟩, [], none, [7]) := by
  constructor
  · have h := (notification_dispatch [] ⟨[(5, 7)]⟩ "foo" (.intVal 1) 5).1 (by decide)
    simpa using h
  · have h := (notification_dispatch [] ⟨[(5, 7)]⟩ "foo" (.intVal 1) 5).2.2 (by decide)
    simpa [RequestCanceler.cancelRequest, findEntry, eraseEntry] using h

/-! ### Response serialization (handler.go `serveResponse`, lines 217-227)

serveResponse builds `bytes.NewBuffer(make([]byte, 1024))`. The slice made
by `make([]byte, 1024)` has length 1024 (all zero bytes) and NewBuffer
takes it as the buffer's initial CONTENTS, so the buffer starts holding
1024 NUL bytes. json.NewEncoder(buff).Encode(rsp) then appends the JSON
encoding of the response followed by one LF byte, and the whole buffer is
written to the stream in a single Write call. The JSON encoder itself is
abstract here: `enc rsp` stands for the UTF-8 JSON bytes of the response
(no trailing newline; Encode adds it). -/

/-- Bytes handed to dst.Write by serveResponse. -/
def serveResponseBytes {α : Type} (enc : Response α → List Nat) (rsp : Response α) :
    List Nat :=
  List.replicate 1024 0 ++ (enc rsp ++ [10])

/-- C1 fails on the code: whatever the JSON encoding of the response is,
the bytes written by serveResponse begin with 1024 zero bytes and are
never exactly the JSON encoding followed by the single LF delimiter. -/
theorem serveResponse_writes_leading_zero_bytes {α : Type}
    (enc : Response α → List Nat) (rsp : Response α) :
    (serveResponseBytes enc rsp).take 1024 = List.replicate 1024 0 ∧
    serveResponseBytes enc rsp ≠ enc rsp ++ [10] := by
  constructor
  · exact List.take_left' (List.length_replicate 1024 0)
  · intro h
    have hlen := congrArg List.length h
    rw [serveResponseBytes, List.length_append, List.length_replicate] at hlen
    omega

end JsonRpc
